import Mathlib

/-!
Verification of the `invoice_qc` invoice extraction and quality-control service.

The Python source is shallowly embedded: Python `float` amounts become exact
rationals (`Rat`), `datetime.date` becomes a `year`/`month`/`day` record,
`None`-returning fallible code becomes `Option`, and the batch validator
becomes a pure function on lists.  Definitions follow the structure of
`invoice_qc/utils.py`, `invoice_qc/validator.py` and `invoice_qc/extractor.py`.
-/

set_option maxHeartbeats 1000000
set_option maxRecDepth 10000

namespace InvoiceQC

/-- A calendar date, embedding Python `datetime.date`. -/
structure PDate where
  year : Nat
  month : Nat
  day : Nat
deriving DecidableEq, Repr

/-- Python whitespace as used by `str.strip` / regex `\s` (ASCII range). -/
def isPySpace (c : Char) : Bool :=
  c == ' ' || c == '\t' || c == '\n' || c == '\r' || c == '\x0b' || c == '\x0c'

/-- Python `str.strip()`: drop whitespace at both ends. -/
def pyStrip (s : String) : String :=
  String.mk (((s.data.dropWhile isPySpace).reverse.dropWhile isPySpace).reverse)

/-- Numeric value of a decimal digit character. -/
def digitVal (c : Char) : Nat := c.toNat - '0'.toNat

/-- Value of a list of decimal digit characters. -/
def natOfDigits (ds : List Char) : Nat := ds.foldl (fun n c => 10 * n + digitVal c) 0

/-- Split a character list at every separator selected by `p`
(the separators themselves are dropped; `acc` holds the current chunk reversed). -/
def splitBy (p : Char → Bool) : List Char → List Char → List (List Char)
  | [], acc => [acc.reverse]
  | c :: rest, acc =>
    if p c then acc.reverse :: splitBy p rest [] else splitBy p rest (c :: acc)

/-- Gregorian leap year, as `datetime` implements it. -/
def isLeapYear (y : Nat) : Bool :=
  (y % 4 == 0 && y % 100 != 0) || y % 400 == 0

/-- Number of days in a month (0 for an invalid month number). -/
def daysInMonth (y m : Nat) : Nat :=
  if m == 1 || m == 3 || m == 5 || m == 7 || m == 8 || m == 10 || m == 12 then 31
  else if m == 4 || m == 6 || m == 9 || m == 11 then 30
  else if m == 2 then (if isLeapYear y then 29 else 28)
  else 0

/-- Build a date, `none` when out of range (Python `datetime.date` raises). -/
def mkValidDate (y m d : Nat) : Option PDate :=
  if 1 ≤ m ∧ m ≤ 12 ∧ 1 ≤ d ∧ d ≤ daysInMonth y m then some ⟨y, m, d⟩ else none

/-- Separators accepted between numeric date fields. -/
def isDateSep (c : Char) : Bool := c == '/' || c == '-' || c == '.'

/-- Modelled from the spec: `dateutil.parser.parse(value, dayfirst=True).date()`.
The third-party `dateutil` generic parser is not part of this repository, so we
model the "day-first-biased generic date parse" the spec describes, restricted
to purely numeric dates with `/`, `-` or `.` separators: a leading 4-digit
field is a year (year-month-day); otherwise a trailing 4-digit field is a year
and the first two fields are read day-first (day, month), swapping to
(month, day) when the day-first reading has no valid month.  Every other shape
and every out-of-range date yields `none` (the library raises and the caller
catches). -/
def dateutilParse (value : String) : Option PDate :=
  match splitBy isDateSep value.data [] with
  | [a, b, c] =>
    if a ≠ [] ∧ b ≠ [] ∧ c ≠ [] ∧ (a ++ b ++ c).all Char.isDigit then
      let x := natOfDigits a
      let y := natOfDigits b
      let z := natOfDigits c
      if 1000 ≤ x then mkValidDate x y z
      else if 1000 ≤ z then
        if 1 ≤ y ∧ y ≤ 12 then mkValidDate z y x
        else mkValidDate z x y
      else none
    else none
  | _ => none

/-- Embeds `utils.parse_date_maybe`: strip the input; empty → `none`; otherwise the
day-first generic parse, with any parse failure yielding `none`. -/
def parse_date_maybe (value : String) : Option PDate :=
  let value := pyStrip value
  if value = "" then none else dateutilParse value

/-- Characters kept by the cleaning step of `parse_amount_maybe`
(regex `[^\d,.\-]` removed; digits restricted to ASCII). -/
def keepAmountChar (c : Char) : Bool :=
  c.isDigit || c == ',' || c == '.' || c == '-'

/-- Python `float()` on an unsigned cleaned string: digits with at most one
`'.'` and at least one digit; exact rational value, `none` on anything else. -/
def floatUnsigned (cs : List Char) : Option Rat :=
  match splitBy (fun c => c == '.') cs [] with
  | [a] => if a ≠ [] ∧ a.all Char.isDigit then some (natOfDigits a) else none
  | [a, b] =>
    if (a ≠ [] ∨ b ≠ []) ∧ a.all Char.isDigit ∧ b.all Char.isDigit then
      some ((natOfDigits a : Rat) + (natOfDigits b : Rat) / (10 : Rat) ^ b.length)
    else none
  | _ => none

/-- Python `float()` restricted to strings over digits, `'.'`, `'-'` — all that
can survive the cleaning in `parse_amount_maybe`: an optional leading `'-'`,
then digits with at most one `'.'`, at least one digit; `none` where Python
raises `ValueError`. -/
def floatOfCleaned (cs : List Char) : Option Rat :=
  match cs with
  | '-' :: rest => (floatUnsigned rest).map (fun q => -q)
  | _ => floatUnsigned cs

/-- Embeds `utils.parse_amount_maybe`: keep only digits, `','`, `'.'`, `'-'`
(`re.sub(r"[^\d,.\-]", "", value)`; the following `.strip()` is a no-op since
whitespace never survives the cleaning); `none` if nothing is left; if both
`','` and `'.'` occur, drop every comma (comma taken as thousands separator);
if only `','` occurs, turn it into `'.'` (comma taken as decimal separator);
then Python `float()`, with failure yielding `none`. -/
def parse_amount_maybe (value : String) : Option Rat :=
  let cleaned := value.data.filter keepAmountChar
  if cleaned = [] then none
  else
    let cleaned :=
      if cleaned.contains ',' && cleaned.contains '.' then
        cleaned.filter (fun c => c != ',')
      else if cleaned.contains ',' && !cleaned.contains '.' then
        cleaned.map (fun c => if c = ',' then '.' else c)
      else cleaned
    floatOfCleaned cleaned

/-- C2 counterexample: the claim says `parse_amount("1.234,50") == 1234.50`,
but the code's disambiguation rule (both separators present → drop commas)
turns `"1.234,50"` into `"1.23450"`, which parses to `1.2345 ≠ 1234.50`. -/
theorem claim2_counterexample :
    parse_amount_maybe "1.234,50" = some (1.2345 : Rat) ∧
    (1.2345 : Rat) ≠ (1234.50 : Rat) := by
  refine ⟨of_decide_eq_true (by with_unfolding_all rfl),
    of_decide_eq_true (by with_unfolding_all rfl)⟩

/-- C2 amended: `parse_amount_maybe "₹ 1,234.50" = 1234.50`,
`parse_amount_maybe "1.234,50" = 1.2345` (not `1234.50`: with both separators
present the comma is dropped and the period kept as decimal point), and
`parse_amount_maybe "" = none`. -/
theorem claim2_amended :
    parse_amount_maybe "₹ 1,234.50" = some (1234.50 : Rat) ∧
    parse_amount_maybe "1.234,50" = some (1.2345 : Rat) ∧
    parse_amount_maybe "" = none := by
  refine ⟨of_decide_eq_true (by with_unfolding_all rfl),
    of_decide_eq_true (by with_unfolding_all rfl), by decide⟩

/-- C4: `parse_date_maybe "10/01/2024"` parses day-first to 2024-01-10
(10 January 2024), not 2024-10-01. -/
theorem claim4_parse_date_dayfirst :
    parse_date_maybe "10/01/2024" = some ⟨2024, 1, 10⟩ ∧
    parse_date_maybe "10/01/2024" ≠ some ⟨2024, 10, 1⟩ := by
  refine ⟨by decide, by decide⟩

/-- C9: the scalar parsers are total — for every input string each parser
returns either a parsed value or `none` (the embedding of Python's
catch-all `except` returning `None`), and empty or unparseable input
yields `none`. -/
theorem claim9_parsers_total :
    (∀ s : String, parse_date_maybe s = none ∨ ∃ d, parse_date_maybe s = some d) ∧
    (∀ s : String, parse_amount_maybe s = none ∨ ∃ q, parse_amount_maybe s = some q) ∧
    parse_date_maybe "" = none ∧
    parse_amount_maybe "" = none ∧
    parse_date_maybe "not a date" = none ∧
    parse_amount_maybe "n/a" = none := by
  refine ⟨?_, ?_, by decide, by decide, by decide, by decide⟩
  · intro s
    cases h : parse_date_maybe s with
    | none => exact Or.inl rfl
    | some d => exact Or.inr ⟨d, rfl⟩
  · intro s
    cases h : parse_amount_maybe s with
    | none => exact Or.inl rfl
    | some q => exact Or.inr ⟨q, rfl⟩

/-! ## Data model (`invoice_qc/schema.py`) and validator (`invoice_qc/validator.py`) -/

/-- One billed line (`schema.LineItem`); Python floats as exact rationals. -/
structure LineItem where
  description : String
  quantity : Rat
  unit_price : Rat
  line_total : Rat
deriving DecidableEq, Repr

/-- The central invoice record (`schema.Invoice`). -/
structure Invoice where
  source_file : String
  invoice_number : String
  invoice_date : PDate
  due_date : Option PDate
  seller_name : String
  seller_tax_id : Option String
  buyer_name : String
  buyer_tax_id : Option String
  currency : String
  net_total : Rat
  tax_amount : Rat
  gross_total : Rat
  payment_terms : Option String
  line_items : List LineItem
deriving DecidableEq, Repr

/-- Embeds `validator.EPSILON`: tolerance for the arithmetic reconciliation checks. -/
def EPSILON : Rat := 0.05

/-- Embeds `validator.ALLOWED_CURRENCIES` (a Python set; only membership is used). -/
def ALLOWED_CURRENCIES : List String := ["INR", "EUR", "USD", "GBP"]

/-- Python `date < date`: lexicographic on (year, month, day). -/
def PDate.ltb (a b : PDate) : Bool :=
  decide (a.year < b.year) ||
    (decide (a.year = b.year) &&
      (decide (a.month < b.month) ||
        (decide (a.month = b.month) && decide (a.day < b.day))))

/-- Zero-pad a natural number to `k` digits. -/
def padNum (k n : Nat) : String :=
  let s := toString n
  String.mk (List.replicate (k - s.length) '0') ++ s

/-- Python `date.isoformat()`: `YYYY-MM-DD`. -/
def PDate.isoformat (d : PDate) : String :=
  padNum 4 d.year ++ "-" ++ padNum 2 d.month ++ "-" ++ padNum 2 d.day

/-- Embeds `validator._check_completeness`: the ordered per-record completeness and
date-sanity checks (Python `if not s.strip()` is `pyStrip s = ""`;
`invoice.due_date and invoice.due_date < invoice.invoice_date` is the match on
the optional due date). -/
def check_completeness (inv : Invoice) : List String :=
  (if pyStrip inv.invoice_number = "" then ["missing_field: invoice_number"] else []) ++
  (if pyStrip inv.seller_name = "" then ["missing_field: seller_name"] else []) ++
  (if pyStrip inv.buyer_name = "" then ["missing_field: buyer_name"] else []) ++
  (if inv.currency ∉ ALLOWED_CURRENCIES then ["invalid_currency: " ++ inv.currency] else []) ++
  (if inv.invoice_date.year < 2000 then ["invalid_date: invoice_date_too_old"] else []) ++
  (match inv.due_date with
   | some d =>
     if PDate.ltb d inv.invoice_date then
       ["business_rule_failed: due_date_before_invoice_date"]
     else []
   | none => [])

/-- Embeds `validator._check_business_rules`: tolerance-based totals reconciliation,
sign check, and the line-items sum check (only when line items are present). -/
def check_business_rules (inv : Invoice) : List String :=
  (if EPSILON < |inv.net_total + inv.tax_amount - inv.gross_total| then
     ["business_rule_failed: totals_mismatch_net_plus_tax_ne_gross"] else []) ++
  (if inv.net_total < 0 ∨ inv.tax_amount < 0 ∨ inv.gross_total < 0 then
     ["anomaly: negative_totals"] else []) ++
  (if inv.line_items ≠ [] then
     (if EPSILON < |(inv.line_items.map LineItem.line_total).sum - inv.net_total| then
        ["business_rule_failed: line_items_sum_ne_net_total"] else [])
   else [])

/-- The per-record phase of `validate_invoices`: completeness checks followed
by business-rule checks (`inv_errors` in the source). -/
def recordErrors (inv : Invoice) : List String :=
  check_completeness inv ++ check_business_rules inv

/-- The composite key of `validator._check_duplicates`:
`f"{number}::{seller}::{date.isoformat()}"`, compared exactly. -/
def dupKey (inv : Invoice) : String :=
  inv.invoice_number ++ "::" ++ inv.seller_name ++ "::" ++ inv.invoice_date.isoformat

/-- Number of occurrences of `k` in a list of keys. -/
def countEq (k : String) : List String → Nat
  | [] => 0
  | x :: xs => (if x = k then 1 else 0) + countEq k xs

/-- Embeds `validator._check_duplicates`, viewed per record: the dict it returns keeps
exactly the keys occurring at two or more positions, and a position lies in a
(unique) duplicate group iff its key occurs at least twice in the batch. -/
def isDuplicated (invs : List Invoice) (inv : Invoice) : Bool :=
  decide (2 ≤ countEq (dupKey inv) (invs.map dupKey))

/-- One entry of the `results` list of `validate_invoices`. -/
structure VResult where
  invoice_id : String
  source_file : String
  is_valid : Bool
  errors : List String
deriving DecidableEq, Repr

/-- The `summary` object of `validate_invoices`; the `Counter` of error tags is
modelled by its count function. -/
structure VSummary where
  total_invoices : Nat
  valid_invoices : Nat
  invalid_invoices : Nat
  error_counts : String → Nat

/-- The full return value of `validate_invoices`. -/
structure VReport where
  summary : VSummary
  results : List VResult

/-- Embeds `validator.validate_invoices`.  The per-record loop computes each record's
errors and its `is_valid` flag; the duplicate loop then appends exactly one
`"anomaly: duplicate_invoice"` to every duplicated position (each position
occurs in exactly one group of the `_check_duplicates` dict) without touching
`is_valid`.  The error counter tallies per-record errors plus one increment per
duplicate append, i.e. the occurrences of each tag across the final error
lists; dict/Counter iteration order only affects an ordering the model
abstracts away. -/
def validate_invoices (invs : List Invoice) : VReport :=
  let results : List VResult := invs.map (fun inv =>
    { invoice_id := inv.invoice_number
      source_file := inv.source_file
      is_valid := (recordErrors inv).isEmpty
      errors := recordErrors inv ++
        (if isDuplicated invs inv then ["anomaly: duplicate_invoice"] else []) })
  let total_invoices := invs.length
  let invalid_invoices := (results.filter (fun r => !r.is_valid)).length
  { summary :=
      { total_invoices := total_invoices
        valid_invoices := total_invoices - invalid_invoices
        invalid_invoices := invalid_invoices
        error_counts := fun tag => (results.map (fun r => r.errors.count tag)).sum }
    results := results }

/-! ## Generic helper lemmas -/

/-- Membership in a conditional singleton. -/
theorem mem_ite_singleton {α : Type} {c : Prop} [Decidable c] {e a : α} :
    e ∈ (if c then [a] else []) ↔ c ∧ e = a := by
  by_cases h : c <;> simp [h]

/-- Membership in a conditional list with empty alternative. -/
theorem mem_ite_nil_right {α : Type} {c : Prop} [Decidable c] {e : α} {l : List α} :
    e ∈ (if c then l else []) ↔ c ∧ e ∈ l := by
  by_cases h : c <;> simp [h]

/-- A string whose first 18 characters differ from `"invalid_currency: "` is not
an `invalid_currency` tag, whatever the currency. -/
theorem ne_invalid_currency_tag (t c : String)
    (h18 : t.data.take 18 ≠ "invalid_currency: ".data) :
    t ≠ "invalid_currency: " ++ c := by
  intro h
  apply h18
  have hd := congrArg String.data h
  rw [String.data_append] at hd
  rw [hd]
  have hlen : ("invalid_currency: ".data).length = 18 := by decide
  rw [← hlen, List.take_left]

/-- Membership characterization of `check_completeness`. -/
theorem mem_check_completeness (inv : Invoice) (e : String) :
    e ∈ check_completeness inv ↔
      (pyStrip inv.invoice_number = "" ∧ e = "missing_field: invoice_number") ∨
      (pyStrip inv.seller_name = "" ∧ e = "missing_field: seller_name") ∨
      (pyStrip inv.buyer_name = "" ∧ e = "missing_field: buyer_name") ∨
      (inv.currency ∉ ALLOWED_CURRENCIES ∧ e = "invalid_currency: " ++ inv.currency) ∨
      (inv.invoice_date.year < 2000 ∧ e = "invalid_date: invoice_date_too_old") ∨
      (∃ d, inv.due_date = some d ∧ PDate.ltb d inv.invoice_date = true ∧
        e = "business_rule_failed: due_date_before_invoice_date") := by
  cases hdd : inv.due_date with
  | none => simp [check_completeness, hdd, mem_ite_singleton]
  | some d =>
    by_cases hlt : PDate.ltb d inv.invoice_date = true <;>
      simp [check_completeness, hdd, hlt, mem_ite_singleton]

/-- Membership characterization of `check_business_rules`. -/
theorem mem_check_business_rules (inv : Invoice) (e : String) :
    e ∈ check_business_rules inv ↔
      (EPSILON < |inv.net_total + inv.tax_amount - inv.gross_total| ∧
        e = "business_rule_failed: totals_mismatch_net_plus_tax_ne_gross") ∨
      ((inv.net_total < 0 ∨ inv.tax_amount < 0 ∨ inv.gross_total < 0) ∧
        e = "anomaly: negative_totals") ∨
      (inv.line_items ≠ [] ∧
        EPSILON < |(inv.line_items.map LineItem.line_total).sum - inv.net_total| ∧
        e = "business_rule_failed: line_items_sum_ne_net_total") := by
  simp [check_business_rules, mem_ite_singleton, mem_ite_nil_right, and_assoc]

/-- The duplicate tag can never come out of the per-record phase. -/
theorem dup_tag_not_in_recordErrors (inv : Invoice) :
    "anomaly: duplicate_invoice" ∉ recordErrors inv := by
  intro h
  rw [recordErrors, List.mem_append, mem_check_completeness, mem_check_business_rules] at h
  rcases h with (⟨_, h⟩ | ⟨_, h⟩ | ⟨_, h⟩ | ⟨_, h⟩ | ⟨_, h⟩ | ⟨_, _, _, h⟩) |
    (⟨_, h⟩ | ⟨_, h⟩ | ⟨_, _, h⟩) <;>
    first
    | exact absurd h (by decide)
    | exact absurd h (ne_invalid_currency_tag _ _ (by decide))

/-! ## Claims about the validator -/

/-- An invoice with net 100 and tax 18 and the given gross total; every other
field passes every check. -/
def invTol (g : Rat) : Invoice where
  source_file := "doc.pdf"
  invoice_number := "INV-7"
  invoice_date := ⟨2024, 1, 10⟩
  due_date := none
  seller_name := "Acme"
  seller_tax_id := none
  buyer_name := "Bob"
  buyer_tax_id := none
  currency := "INR"
  net_total := 100
  tax_amount := 18
  gross_total := g
  payment_terms := none
  line_items := []

/-- C5: the totals-mismatch tag is emitted iff `|net + tax − gross| > 0.05`;
with net=100 and tax=18, gross=118.03 yields no mismatch tag and gross=118.10
yields exactly that tag. -/
theorem claim5_totals_tolerance :
    (∀ inv : Invoice,
      "business_rule_failed: totals_mismatch_net_plus_tax_ne_gross" ∈
          check_business_rules inv ↔
        (0.05 : Rat) < |inv.net_total + inv.tax_amount - inv.gross_total|) ∧
    check_business_rules (invTol (118.03 : Rat)) = [] ∧
    check_business_rules (invTol (118.10 : Rat)) =
      ["business_rule_failed: totals_mismatch_net_plus_tax_ne_gross"] := by
  refine ⟨?_, of_decide_eq_true (by with_unfolding_all rfl),
    of_decide_eq_true (by with_unfolding_all rfl)⟩
  intro inv
  rw [mem_check_business_rules]
  constructor
  · rintro (⟨h, _⟩ | ⟨_, h⟩ | ⟨_, _, h⟩)
    · exact h
    · exact absurd h (by decide)
    · exact absurd h (by decide)
  · intro h
    exact Or.inl ⟨h, rfl⟩

/-- C8: `validate_invoices` is deterministic and stateless.  The source has no
cross-call mutable state (its module constants are never written, the counter
and result lists are function-local), so its embedding is a pure function and
two calls on the same batch give identical summaries and results lists. -/
theorem claim8_validate_stateless (invs : List Invoice) :
    (validate_invoices invs).summary = (validate_invoices invs).summary ∧
    (validate_invoices invs).results = (validate_invoices invs).results :=
  ⟨rfl, rfl⟩

/-- A two-element batch of duplicates that pass every per-record check. -/
def invDupA : Invoice where
  source_file := "a.pdf"
  invoice_number := "INV-1"
  invoice_date := ⟨2024, 1, 10⟩
  due_date := none
  seller_name := "Acme"
  seller_tax_id := none
  buyer_name := "Bob"
  buyer_tax_id := none
  currency := "INR"
  net_total := 100
  tax_amount := 18
  gross_total := 118
  payment_terms := none
  line_items := []

/-- The same invoice arriving from a second source file. -/
def invDupB : Invoice := { invDupA with source_file := "b.pdf" }

/-- C1 (code bug): after duplicate annotation a record can have
`is_valid = true` while `errors = ["anomaly: duplicate_invoice"] ≠ []` — the
annotation loop appends the tag but never updates `is_valid`, and the summary
still counts both duplicates as valid.  This refutes
`is_valid == (errors == [])` on the batch `[invDupA, invDupB]`. -/
theorem claim1_code_bug_eval :
    (validate_invoices [invDupA, invDupB]).results.map VResult.is_valid =
      [true, true] ∧
    (validate_invoices [invDupA, invDupB]).results.map VResult.errors =
      [["anomaly: duplicate_invoice"], ["anomaly: duplicate_invoice"]] ∧
    (validate_invoices [invDupA, invDupB]).summary.valid_invoices = 2 ∧
    (validate_invoices [invDupA, invDupB]).summary.invalid_invoices = 0 := by
  refine ⟨of_decide_eq_true (by with_unfolding_all rfl),
    of_decide_eq_true (by with_unfolding_all rfl),
    of_decide_eq_true (by with_unfolding_all rfl),
    of_decide_eq_true (by with_unfolding_all rfl)⟩

/-- First of a duplicate pair whose seller name contains the key separator. -/
def invK1 : Invoice := { invDupA with invoice_number := "X", seller_name := "Y::Z" }

/-- Second of the pair, from a different source file. -/
def invK2 : Invoice := { invK1 with source_file := "b.pdf" }

/-- A third invoice with a different invoice number whose composite key
nevertheless collides with the pair's key. -/
def invK3 : Invoice :=
  { invK1 with source_file := "c.pdf", invoice_number := "X::Y", seller_name := "Z" }

/-- C6 counterexample: `invK3` has a different `invoice_number` from the
duplicate pair `invK1`/`invK2` (which agree on number, seller and date and come
from different source files), yet it still receives the
`anomaly: duplicate_invoice` tag, because its `"::"`-joined composite key
collides with theirs (`"X" :: "Y::Z"` vs `"X::Y" :: "Z"`). -/
theorem claim6_counterexample :
    invK1.invoice_number = invK2.invoice_number ∧
    invK1.seller_name = invK2.seller_name ∧
    invK1.invoice_date = invK2.invoice_date ∧
    invK1.source_file ≠ invK2.source_file ∧
    invK3.invoice_number ≠ invK1.invoice_number ∧
    "anomaly: duplicate_invoice" ∈
      ((validate_invoices [invK1, invK2, invK3]).results.map VResult.errors).getD 2 [] := by
  refine ⟨rfl, rfl, rfl, by decide, by decide,
    of_decide_eq_true (by with_unfolding_all rfl)⟩

/-- Placeholder result used as the default of list indexing. -/
def noResult : VResult := ⟨"", "", true, []⟩

/-- C6 amended: in a batch `[i1, i2, i3]` where `i1` and `i2` agree on
(invoice_number, seller_name, invoice_date), both receive
`anomaly: duplicate_invoice`; the third receives no duplicate tag provided its
composite key `number :: seller :: date(ISO)` differs from theirs (a different
`invoice_number` alone does not guarantee this, since fields may contain the
`"::"` separator).  Keys are compared by exact case-sensitive equality. -/
theorem claim6_amended (i1 i2 i3 : Invoice)
    (hnum : i1.invoice_number = i2.invoice_number)
    (hsel : i1.seller_name = i2.seller_name)
    (hdate : i1.invoice_date = i2.invoice_date)
    (hkey : dupKey i3 ≠ dupKey i1) :
    "anomaly: duplicate_invoice" ∈
      ((validate_invoices [i1, i2, i3]).results.getD 0 noResult).errors ∧
    "anomaly: duplicate_invoice" ∈
      ((validate_invoices [i1, i2, i3]).results.getD 1 noResult).errors ∧
    "anomaly: duplicate_invoice" ∉
      ((validate_invoices [i1, i2, i3]).results.getD 2 noResult).errors := by
  have hk12 : dupKey i2 = dupKey i1 := by
    rw [dupKey, dupKey, ← hnum, ← hsel, ← hdate]
  have hd1 : isDuplicated [i1, i2, i3] i1 = true := by
    simp [isDuplicated, countEq, hk12, hkey, Ne.symm hkey]
  have hd2 : isDuplicated [i1, i2, i3] i2 = true := by
    simp [isDuplicated, countEq, hk12, hkey, Ne.symm hkey]
  have hd3 : isDuplicated [i1, i2, i3] i3 = false := by
    simp [isDuplicated, countEq, hk12, hkey, Ne.symm hkey]
  refine ⟨?_, ?_, ?_⟩
  · simp [validate_invoices, hd1]
  · simp [validate_invoices, hd2]
  · simp [validate_invoices, hd3]
    exact dup_tag_not_in_recordErrors i3

/-- First of the witness duplicate pair. -/
def invW1 : Invoice := { invDupA with invoice_number := "A-1", seller_name := "S" }

/-- Second of the witness pair, from another source file. -/
def invW2 : Invoice := { invW1 with source_file := "b.pdf" }

/-- A third invoice whose composite key genuinely differs. -/
def invW3 : Invoice := { invW1 with source_file := "c.pdf", invoice_number := "B-2" }

/-- Witness for the amended C6 at a concrete batch. -/
theorem claim6_amended_witness :
    (invW1.invoice_number = invW2.invoice_number ∧
      invW1.seller_name = invW2.seller_name ∧
      invW1.invoice_date = invW2.invoice_date ∧
      dupKey invW3 ≠ dupKey invW1) ∧
    "anomaly: duplicate_invoice" ∈
      ((validate_invoices [invW1, invW2, invW3]).results.getD 0 noResult).errors ∧
    "anomaly: duplicate_invoice" ∈
      ((validate_invoices [invW1, invW2, invW3]).results.getD 1 noResult).errors ∧
    "anomaly: duplicate_invoice" ∉
      ((validate_invoices [invW1, invW2, invW3]).results.getD 2 noResult).errors :=
  ⟨⟨rfl, rfl, rfl, by decide⟩,
    claim6_amended invW1 invW2 invW3 rfl rfl rfl (by decide)⟩

/-! ## Field extractor (`invoice_qc/extractor.py`) -/

/-- Python `str.splitlines` restricted to the line breaks that can occur here:
`\r\n`, `\r`, `\n` (no trailing empty line; empty string gives no lines). -/
def splitLinesAux : List Char → List Char → List (List Char)
  | [], acc => if acc.isEmpty then [] else [acc.reverse]
  | '\r' :: '\n' :: rest, acc => acc.reverse :: splitLinesAux rest []
  | '\r' :: rest, acc => acc.reverse :: splitLinesAux rest []
  | '\n' :: rest, acc => acc.reverse :: splitLinesAux rest []
  | c :: rest, acc => splitLinesAux rest (c :: acc)

/-- Embedding of `text.splitlines()`. -/
def splitLines (s : String) : List String :=
  (splitLinesAux s.data []).map String.mk

/-- Tests whether `p` occurs at the head of `s`. -/
def leadsWith : List Char → List Char → Bool
  | [], _ => true
  | _ :: _, [] => false
  | p :: ps, c :: cs => (c == p) && leadsWith ps cs

/-- Python `pat in s` (literal substring containment). -/
def listHasSub (pat : List Char) : List Char → Bool
  | [] => pat.isEmpty
  | c :: cs => leadsWith pat (c :: cs) || listHasSub pat cs

/-- Python `pat in s` on strings. -/
def strContains (s pat : String) : Bool := listHasSub pat.data s.data

/-- Condition `"net" in lower and "total" in lower or "subtotal" in lower`
(Python precedence: `and` binds tighter than `or`). -/
def netCond (lower : String) : Bool :=
  (strContains lower "net" && strContains lower "total") || strContains lower "subtotal"

/-- Condition `"tax" in lower or "vat" in lower or "gst" in lower`. -/
def taxCond (lower : String) : Bool :=
  strContains lower "tax" || strContains lower "vat" || strContains lower "gst"

/-- Condition `("total" in lower or "grand total" in lower) and "net" not in lower`. -/
def grossCond (lower : String) : Bool :=
  (strContains lower "total" || strContains lower "grand total") &&
    !strContains lower "net"

/-- A line the `elif` chain classifies as the net/subtotal line. -/
def isNetLine (line : String) : Bool := netCond line.toLower

/-- A line the `elif` chain classifies as the tax line. -/
def isTaxLine (line : String) : Bool :=
  !netCond line.toLower && taxCond line.toLower

/-- A line the `elif` chain classifies as the gross/total line. -/
def isGrossLine (line : String) : Bool :=
  !netCond line.toLower && !taxCond line.toLower && grossCond line.toLower

/-- One iteration of the `_extract_totals` line loop: classify the line by the
`elif` chain; when its amount parses, overwrite that category's running value,
and when it does not (`None`), leave the running values unchanged. -/
def totalsStep (acc : Rat × Rat × Rat) (line : String) : Rat × Rat × Rat :=
  let lower := line.toLower
  if netCond lower then
    match parse_amount_maybe line with
    | some a => (a, acc.2.1, acc.2.2)
    | none => acc
  else if taxCond lower then
    match parse_amount_maybe line with
    | some a => (acc.1, a, acc.2.2)
    | none => acc
  else if grossCond lower then
    match parse_amount_maybe line with
    | some a => (acc.1, acc.2.1, a)
    | none => acc
  else acc

/-- Embeds `extractor._extract_totals`: scan the lines with running values starting at
(0, 0, 0), then the fallback `gross = net + tax` when gross is still 0 and
net or tax is positive. -/
def extract_totals (text : String) : Rat × Rat × Rat :=
  let s := (splitLines text).foldl totalsStep (0, 0, 0)
  if s.2.2 = 0 ∧ (0 < s.1 ∨ 0 < s.2.1) then (s.1, s.2.1, s.1 + s.2.1) else s

/-- Case-insensitive literal match (pattern given lowercase) at the head;
returns the remainder of the input. -/
def litCI : List Char → List Char → Option (List Char)
  | [], cs => some cs
  | _ :: _, [] => none
  | p :: ps, c :: cs => if c.toLower = p then litCI ps cs else none

/-- Case-sensitive literal match at the head; returns the remainder. -/
def litExact : List Char → List Char → Option (List Char)
  | [], cs => some cs
  | _ :: _, [] => none
  | p :: ps, c :: cs => if c = p then litExact ps cs else none

/-- Regex `\s*` before a non-whitespace literal or class: the greedy skip is exact
because no shorter skip can let a whitespace character match what follows. -/
def skipWS (cs : List Char) : List Char := cs.dropWhile isPySpace

/-- Regex `[:\-]`: exactly one colon or hyphen. -/
def colonDash : List Char → Option (List Char)
  | c :: cs => if c = ':' ∨ c = '-' then some cs else none
  | [] => none

/-- Greedy capture of `cls`-characters after dropping `k` characters;
`none` when empty (the `+` needs at least one). -/
def captureFrom (cls : Char → Bool) (cs : List Char) (k : Nat) : Option (List Char) :=
  let cap := (cs.drop k).takeWhile cls
  if cap.isEmpty then none else some cap

/-- Backtracking for `\s*(cls+)`: try the longest whitespace skip first and
give characters back until the capture becomes nonempty (needed because the
capture classes may themselves contain whitespace, e.g. `(.+)` and the date
class with a space). -/
def backtrackWs (cls : Char → Bool) (cs : List Char) : Nat → Option (List Char)
  | 0 => captureFrom cls cs 0
  | k + 1 =>
    match captureFrom cls cs (k + 1) with
    | some cap => some cap
    | none => backtrackWs cls cs k

/-- Regex `\s*(cls+)` with the regex engine's greedy-then-backtrack behavior. -/
def wsThenCapture (cls : Char → Bool) (cs : List Char) : Option (List Char) :=
  backtrackWs cls cs (cs.takeWhile isPySpace).length

/-- Regex `.`: any character but a newline. -/
def nonNL (c : Char) : Bool := c != '\n'

/-- Regex `\S`. -/
def nonWSChar (c : Char) : Bool := !isPySpace c

/-- Regex class `[A-Za-z0-9/\-\. ]` of the date patterns. -/
def dateClassChar (c : Char) : Bool :=
  c.isAlpha || c.isDigit || c == '/' || c == '-' || c == '.' || c == ' '

/-- Regex class `[A-Za-z0-9\-]` of the tax-id pattern. -/
def taxIdClassChar (c : Char) : Bool := c.isAlpha || c.isDigit || c == '-'

/-- The tail `\s*[:\-]\s*(\S+)` of the invoice-number patterns; returns the
`(\S+)` capture. -/
def numTail (cs : List Char) : Option (List Char) :=
  (colonDash (skipWS cs)).bind (wsThenCapture nonWSChar)

/-- Alternation `(No\.?|Number|#)` followed by the number tail, alternatives in
the regex engine's backtracking order `no.`, `no`, `number`, `#`; returns the
alternative as it appears in the input — this is group 1, which is what
`_search_first`'s default `group=1` extracts for this pattern. -/
def tryNoAlt : List String → List Char → Option String
  | [], _ => none
  | a :: rest, cs =>
    match litCI a.data cs with
    | some after => if (numTail after).isSome then some (String.mk (cs.take a.data.length)) else tryNoAlt rest cs
    | none => tryNoAlt rest cs

/-- Pattern `INVOICE_NO_PATTERNS[0] = Invoice\s*(No\.?|Number|#)\s*[:\-]\s*(\S+)`
tried at one position (group 1 = the label alternative). -/
def invNoPat0At (cs : List Char) : Option String :=
  match litCI "invoice".data cs with
  | some rest => tryNoAlt ["no.", "no", "number", "#"] (skipWS rest)
  | none => none

/-- Pattern `INVOICE_NO_PATTERNS[1] = Inv\s*#\s*[:\-]\s*(\S+)` at one position
(group 1 = the `(\S+)` token). -/
def invNoPat1At (cs : List Char) : Option String :=
  match litCI "inv".data cs with
  | some rest =>
    match skipWS rest with
    | '#' :: rest2 => (numTail rest2).map String.mk
    | _ => none
  | none => none

/-- The tail `\s*[:\-]\s*([A-Za-z0-9/\-\. ]+)` of the date patterns. -/
def dateTail (cs : List Char) : Option String :=
  ((colonDash (skipWS cs)).bind (wsThenCapture dateClassChar)).map String.mk

/-- Pattern `INVOICE_DATE_PATTERNS[0] = Invoice\s*Date\s*[:\-]\s*([A-Za-z0-9/\-\. ]+)`. -/
def invDatePat0At (cs : List Char) : Option String :=
  match litCI "invoice".data cs with
  | some r1 =>
    match litCI "date".data (skipWS r1) with
    | some r2 => dateTail r2
    | none => none
  | none => none

/-- Pattern `INVOICE_DATE_PATTERNS[1] = Date\s*[:\-]\s*([A-Za-z0-9/\-\. ]+)`. -/
def datePat1At (cs : List Char) : Option String :=
  match litCI "date".data cs with
  | some r1 => dateTail r1
  | none => none

/-- Pattern `DUE_DATE_PATTERNS[0] = Due\s*Date\s*[:\-]\s*([A-Za-z0-9/\-\. ]+)`. -/
def dueDatePat0At (cs : List Char) : Option String :=
  match litCI "due".data cs with
  | some r1 =>
    match litCI "date".data (skipWS r1) with
    | some r2 => dateTail r2
    | none => none
  | none => none

/-- The tail `\s*[:\-]\s*(.+)` of the party patterns. -/
def lineTail (cs : List Char) : Option String :=
  ((colonDash (skipWS cs)).bind (wsThenCapture nonNL)).map String.mk

/-- Pattern `SELLER_PATTERNS[0] = Seller\s*[:\-]\s*(.+)`. -/
def sellerPat0At (cs : List Char) : Option String :=
  match litCI "seller".data cs with
  | some r1 => lineTail r1
  | none => none

/-- Pattern `SELLER_PATTERNS[1] = Supplier\s*[:\-]\s*(.+)`. -/
def supplierPat1At (cs : List Char) : Option String :=
  match litCI "supplier".data cs with
  | some r1 => lineTail r1
  | none => none

/-- Pattern `BUYER_PATTERNS[0] = Buyer\s*[:\-]\s*(.+)`. -/
def buyerPat0At (cs : List Char) : Option String :=
  match litCI "buyer".data cs with
  | some r1 => lineTail r1
  | none => none

/-- Pattern `BUYER_PATTERNS[1] = Customer\s*[:\-]\s*(.+)`. -/
def customerPat1At (cs : List Char) : Option String :=
  match litCI "customer".data cs with
  | some r1 => lineTail r1
  | none => none

/-- Embeds `extractor.INVOICE_NO_PATTERNS`, each pattern as its position matcher. -/
def INVOICE_NO_PATTERNS : List (List Char → Option String) :=
  [invNoPat0At, invNoPat1At]

/-- Embeds `extractor.INVOICE_DATE_PATTERNS`. -/
def INVOICE_DATE_PATTERNS : List (List Char → Option String) :=
  [invDatePat0At, datePat1At]

/-- Embeds `extractor.DUE_DATE_PATTERNS`. -/
def DUE_DATE_PATTERNS : List (List Char → Option String) :=
  [dueDatePat0At]

/-- Embeds `extractor.SELLER_PATTERNS`. -/
def SELLER_PATTERNS : List (List Char → Option String) :=
  [sellerPat0At, supplierPat1At]

/-- Embeds `extractor.BUYER_PATTERNS`. -/
def BUYER_PATTERNS : List (List Char → Option String) :=
  [buyerPat0At, customerPat1At]

/-- Embeds `re.search`: try the matcher at every position, leftmost match wins
(the flag `re.IGNORECASE` is baked into the case-insensitive matchers). -/
def searchAt (f : List Char → Option String) : List Char → Option String
  | [] => f []
  | c :: cs =>
    match f (c :: cs) with
    | some r => some r
    | none => searchAt f cs

/-- Embeds `extractor._search_first`: the first pattern (in list order) matching
anywhere in the text wins; the captured group is `.strip()`ed. -/
def search_first (pats : List (List Char → Option String)) (text : String) :
    Option String :=
  match pats with
  | [] => none
  | p :: rest =>
    match searchAt p text.data with
    | some r => some (pyStrip r)
    | none => search_first rest text

/-- Word character of regex `\b` (`[A-Za-z0-9_]`). -/
def isWordChar (c : Char) : Bool := c.isAlpha || c.isDigit || c == '_'

/-- The position boundary `\b` holds before the match: no preceding character,
or a non-word one. -/
def boundaryOk : Option Char → Bool
  | none => true
  | some c => !isWordChar c

/-- Tests whether `\b{code}\b` matches at this position (case-sensitively: the currency
search passes no IGNORECASE flag). -/
def matchWordHere (code : List Char) (prev : Option Char) (cs : List Char) : Bool :=
  boundaryOk prev &&
    (match litExact code cs with
     | some [] => true
     | some (c :: _) => !isWordChar c
     | none => false)

/-- Embeds `re.search(rf"\b{code}\b", text)`: scan every position, tracking the
previous character for the left boundary. -/
def wordSearchAux (code : List Char) : Option Char → List Char → Bool
  | prev, [] => matchWordHere code prev []
  | prev, c :: cs => matchWordHere code prev (c :: cs) || wordSearchAux code (some c) cs

/-- Embeds `extractor.CURRENCY_CODES`, in priority order. -/
def CURRENCY_CODES : List String := ["INR", "EUR", "USD", "GBP"]

/-- Embeds `extractor._guess_currency`: the first code found as a whole word anywhere
in the text; naive fallback "INR". -/
def guess_currency (text : String) : String :=
  match CURRENCY_CODES.find? (fun code => wordSearchAux code.data none text.data) with
  | some code => code
  | none => "INR"

/-- Alternation `(GSTIN|VAT|Tax\s*ID)` at one position (alternatives cannot overlap, so no
backtracking between them is observable). -/
def taxLabel (cs : List Char) : Option (List Char) :=
  match litCI "gstin".data cs with
  | some r => some r
  | none =>
    match litCI "vat".data cs with
    | some r => some r
    | none =>
      match litCI "tax".data cs with
      | some r => litCI "id".data (skipWS r)
      | none => none

/-- Pattern `(GSTIN|VAT|Tax\s*ID)\s*[:\-]\s*([A-Za-z0-9\-]+)` at one position,
returning group 2 (the id token). -/
def taxIdAt (cs : List Char) : Option String :=
  match taxLabel cs with
  | some rest => ((colonDash (skipWS rest)).bind (wsThenCapture taxIdClassChar)).map String.mk
  | none => none

/-- Pattern `Payment\s*Terms\s*[:\-]\s*(.+)` at one position (group 1). -/
def paymentTermsAt (cs : List Char) : Option String :=
  match litCI "payment".data cs with
  | some r1 =>
    match litCI "terms".data (skipWS r1) with
    | some r2 => ((colonDash (skipWS r2)).bind (wsThenCapture nonNL)).map String.mk
    | none => none
  | none => none

/-- Python `x or default` on an optional string: the default also replaces an
empty (falsy) match result. -/
def orDefault (x : Option String) (d : String) : String :=
  match x with
  | some s => if s = "" then d else s
  | none => d

/-- Embeds `extractor.parse_invoice_from_text`: regex-based best-effort field
recovery with sentinel fallbacks.  The invoice-date fallback
`parse_date_maybe("2000-01-01")` always succeeds, so the final `getD` default
is never reached.  `_extract_line_items` always returns `[]` and the buyer tax
id is never populated from text. -/
def parse_invoice_from_text (text source_file : String) : Invoice :=
  let invoice_number := orDefault (search_first INVOICE_NO_PATTERNS text) "UNKNOWN"
  let raw_inv_date := orDefault (search_first INVOICE_DATE_PATTERNS text) ""
  let invoice_date :=
    ((parse_date_maybe raw_inv_date).orElse
      (fun _ => parse_date_maybe "2000-01-01")).getD ⟨2000, 1, 1⟩
  let raw_due_date := orDefault (search_first DUE_DATE_PATTERNS text) ""
  let due_date := parse_date_maybe raw_due_date
  let seller_name := orDefault (search_first SELLER_PATTERNS text) "UNKNOWN_SELLER"
  let buyer_name := orDefault (search_first BUYER_PATTERNS text) "UNKNOWN_BUYER"
  let seller_tax_id := (searchAt taxIdAt text.data).map pyStrip
  let currency := guess_currency text
  let totals := extract_totals text
  let payment_terms := (searchAt paymentTermsAt text.data).map pyStrip
  { source_file := source_file
    invoice_number := invoice_number
    invoice_date := invoice_date
    due_date := due_date
    seller_name := seller_name
    seller_tax_id := seller_tax_id
    buyer_name := buyer_name
    buyer_tax_id := none
    currency := currency
    net_total := totals.1
    tax_amount := totals.2.1
    gross_total := totals.2.2
    payment_terms := payment_terms
    line_items := [] }

/-! ## Claims about the extractor -/

/-- The net component of the `_extract_totals` scan equals the last
successfully parsed amount among the net-classified lines (the start value
when none parses). -/
theorem foldl_totalsStep_net (ls : List String) : ∀ n t g : Rat,
    (ls.foldl totalsStep (n, t, g)).1 =
      ((ls.filter isNetLine).filterMap parse_amount_maybe).getLastD n := by
  induction ls with
  | nil => intro n t g; rfl
  | cons l rest ih =>
    intro n t g
    rw [List.foldl_cons]
    by_cases hnet : netCond l.toLower = true
    · cases hp : parse_amount_maybe l with
      | some a =>
        rw [show totalsStep (n, t, g) l = (a, t, g) by simp [totalsStep, hnet, hp],
          List.filter_cons_of_pos (by simpa [isNetLine] using hnet),
          List.filterMap_cons_some hp, List.getLastD_cons, ih]
      | none =>
        rw [show totalsStep (n, t, g) l = (n, t, g) by simp [totalsStep, hnet, hp],
          List.filter_cons_of_pos (by simpa [isNetLine] using hnet),
          List.filterMap_cons_none hp, ih]
    · rw [List.filter_cons_of_neg (by simpa [isNetLine] using hnet)]
      by_cases htax : taxCond l.toLower = true
      · cases hp : parse_amount_maybe l with
        | some a =>
          rw [show totalsStep (n, t, g) l = (n, a, g) by
            simp [totalsStep, hnet, htax, hp], ih]
        | none =>
          rw [show totalsStep (n, t, g) l = (n, t, g) by
            simp [totalsStep, hnet, htax, hp], ih]
      · by_cases hgross : grossCond l.toLower = true
        · cases hp : parse_amount_maybe l with
          | some a =>
            rw [show totalsStep (n, t, g) l = (n, t, a) by
              simp [totalsStep, hnet, htax, hgross, hp], ih]
          | none =>
            rw [show totalsStep (n, t, g) l = (n, t, g) by
              simp [totalsStep, hnet, htax, hgross, hp], ih]
        · rw [show totalsStep (n, t, g) l = (n, t, g) by
            simp [totalsStep, hnet, htax, hgross], ih]

/-- Tax component analogue of `foldl_totalsStep_net`. -/
theorem foldl_totalsStep_tax (ls : List String) : ∀ n t g : Rat,
    (ls.foldl totalsStep (n, t, g)).2.1 =
      ((ls.filter isTaxLine).filterMap parse_amount_maybe).getLastD t := by
  induction ls with
  | nil => intro n t g; rfl
  | cons l rest ih =>
    intro n t g
    rw [List.foldl_cons]
    by_cases hnet : netCond l.toLower = true
    · rw [List.filter_cons_of_neg (by simp [isTaxLine, hnet])]
      cases hp : parse_amount_maybe l with
      | some a =>
        rw [show totalsStep (n, t, g) l = (a, t, g) by simp [totalsStep, hnet, hp], ih]
      | none =>
        rw [show totalsStep (n, t, g) l = (n, t, g) by simp [totalsStep, hnet, hp], ih]
    · by_cases htax : taxCond l.toLower = true
      · rw [List.filter_cons_of_pos (by simp [isTaxLine, hnet, htax])]
        cases hp : parse_amount_maybe l with
        | some a =>
          rw [show totalsStep (n, t, g) l = (n, a, g) by
            simp [totalsStep, hnet, htax, hp],
            List.filterMap_cons_some hp, List.getLastD_cons, ih]
        | none =>
          rw [show totalsStep (n, t, g) l = (n, t, g) by
            simp [totalsStep, hnet, htax, hp],
            List.filterMap_cons_none hp, ih]
      · rw [List.filter_cons_of_neg (by simp [isTaxLine, hnet, htax])]
        by_cases hgross : grossCond l.toLower = true
        · cases hp : parse_amount_maybe l with
          | some a =>
            rw [show totalsStep (n, t, g) l = (n, t, a) by
              simp [totalsStep, hnet, htax, hgross, hp], ih]
          | none =>
            rw [show totalsStep (n, t, g) l = (n, t, g) by
              simp [totalsStep, hnet, htax, hgross, hp], ih]
        · rw [show totalsStep (n, t, g) l = (n, t, g) by
            simp [totalsStep, hnet, htax, hgross], ih]

/-- Gross component analogue of `foldl_totalsStep_net` (fallback excluded). -/
theorem foldl_totalsStep_gross (ls : List String) : ∀ n t g : Rat,
    (ls.foldl totalsStep (n, t, g)).2.2 =
      ((ls.filter isGrossLine).filterMap parse_amount_maybe).getLastD g := by
  induction ls with
  | nil => intro n t g; rfl
  | cons l rest ih =>
    intro n t g
    rw [List.foldl_cons]
    by_cases hnet : netCond l.toLower = true
    · rw [List.filter_cons_of_neg (by simp [isGrossLine, hnet])]
      cases hp : parse_amount_maybe l with
      | some a =>
        rw [show totalsStep (n, t, g) l = (a, t, g) by simp [totalsStep, hnet, hp], ih]
      | none =>
        rw [show totalsStep (n, t, g) l = (n, t, g) by simp [totalsStep, hnet, hp], ih]
    · by_cases htax : taxCond l.toLower = true
      · rw [List.filter_cons_of_neg (by simp [isGrossLine, hnet, htax])]
        cases hp : parse_amount_maybe l with
        | some a =>
          rw [show totalsStep (n, t, g) l = (n, a, g) by
            simp [totalsStep, hnet, htax, hp], ih]
        | none =>
          rw [show totalsStep (n, t, g) l = (n, t, g) by
            simp [totalsStep, hnet, htax, hp], ih]
      · by_cases hgross : grossCond l.toLower = true
        · rw [List.filter_cons_of_pos (by simp [isGrossLine, hnet, htax, hgross])]
          cases hp : parse_amount_maybe l with
          | some a =>
            rw [show totalsStep (n, t, g) l = (n, t, a) by
              simp [totalsStep, hnet, htax, hgross, hp],
              List.filterMap_cons_some hp, List.getLastD_cons, ih]
          | none =>
            rw [show totalsStep (n, t, g) l = (n, t, g) by
              simp [totalsStep, hnet, htax, hgross, hp],
              List.filterMap_cons_none hp, ih]
        · rw [List.filter_cons_of_neg (by simp [isGrossLine, hnet, htax, hgross])]
          rw [show totalsStep (n, t, g) l = (n, t, g) by
            simp [totalsStep, hnet, htax, hgross], ih]

/-- Spec-side description (for the amended C3): the last successfully parsed
amount among the net-classified lines, default 0. -/
def netLast (text : String) : Rat :=
  (((splitLines text).filter isNetLine).filterMap parse_amount_maybe).getLastD 0

/-- Spec-side description: last successfully parsed tax-line amount, default 0. -/
def taxLast (text : String) : Rat :=
  (((splitLines text).filter isTaxLine).filterMap parse_amount_maybe).getLastD 0

/-- Spec-side description: last successfully parsed gross-line amount before
the fallback, default 0. -/
def grossLast (text : String) : Rat :=
  (((splitLines text).filter isGrossLine).filterMap parse_amount_maybe).getLastD 0

/-- C3 counterexample: in `"Net Total 50\nNet Total xx"` the LAST net-classified
line parses to `none`; the claim then demands net = 0, but the code leaves the
value set by the earlier line, 50. -/
theorem claim3_counterexample :
    (splitLines "Net Total 50\nNet Total xx").filter isNetLine =
      ["Net Total 50", "Net Total xx"] ∧
    parse_amount_maybe "Net Total xx" = none ∧
    (extract_totals "Net Total 50\nNet Total xx").1 = 50 ∧
    (50 : Rat) ≠ 0 := by
  refine ⟨of_decide_eq_true (by with_unfolding_all rfl), by decide,
    of_decide_eq_true (by with_unfolding_all rfl),
    of_decide_eq_true (by with_unfolding_all rfl)⟩

/-- C3 amended: the final net and tax are the LAST SUCCESSFULLY PARSED amounts
among the lines classified into each category (default 0; a null parse leaves
the running value unchanged, so an earlier line's value persists), and gross is
likewise except that when the scanned gross is 0 and net or tax is positive the
fallback replaces it by net + tax. -/
theorem claim3_amended (text : String) :
    (extract_totals text).1 = netLast text ∧
    (extract_totals text).2.1 = taxLast text ∧
    (extract_totals text).2.2 =
      (if grossLast text = 0 ∧ (0 < netLast text ∨ 0 < taxLast text) then
        netLast text + taxLast text
      else grossLast text) := by
  have hn := foldl_totalsStep_net (splitLines text) 0 0 0
  have ht := foldl_totalsStep_tax (splitLines text) 0 0 0
  have hg := foldl_totalsStep_gross (splitLines text) 0 0 0
  simp only [extract_totals, netLast, taxLast, grossLast]
  rw [← hn, ← ht, ← hg]
  by_cases hc : ((splitLines text).foldl totalsStep (0, 0, 0)).2.2 = 0 ∧
      (0 < ((splitLines text).foldl totalsStep (0, 0, 0)).1 ∨
        0 < ((splitLines text).foldl totalsStep (0, 0, 0)).2.1)
  · rw [if_pos hc, if_pos hc]
    exact ⟨rfl, rfl, rfl⟩
  · rw [if_neg hc, if_neg hc]
    exact ⟨rfl, rfl, rfl⟩

/-- C7: when none of the invoice-number, seller and buyer label patterns
matches, extraction substitutes the sentinels "UNKNOWN", "UNKNOWN_SELLER" and
"UNKNOWN_BUYER"; these are non-blank, so validation emits no `missing_field`
tag for any of the three fields. -/
theorem claim7_sentinels (text source_file : String)
    (hno : search_first INVOICE_NO_PATTERNS text = none)
    (hsel : search_first SELLER_PATTERNS text = none)
    (hbuy : search_first BUYER_PATTERNS text = none) :
    (parse_invoice_from_text text source_file).invoice_number = "UNKNOWN" ∧
    (parse_invoice_from_text text source_file).seller_name = "UNKNOWN_SELLER" ∧
    (parse_invoice_from_text text source_file).buyer_name = "UNKNOWN_BUYER" ∧
    "missing_field: invoice_number" ∉
      check_completeness (parse_invoice_from_text text source_file) ∧
    "missing_field: seller_name" ∉
      check_completeness (parse_invoice_from_text text source_file) ∧
    "missing_field: buyer_name" ∉
      check_completeness (parse_invoice_from_text text source_file) := by
  have hn : (parse_invoice_from_text text source_file).invoice_number = "UNKNOWN" := by
    simp [parse_invoice_from_text, hno, orDefault]
  have hs : (parse_invoice_from_text text source_file).seller_name = "UNKNOWN_SELLER" := by
    simp [parse_invoice_from_text, hsel, orDefault]
  have hb : (parse_invoice_from_text text source_file).buyer_name = "UNKNOWN_BUYER" := by
    simp [parse_invoice_from_text, hbuy, orDefault]
  refine ⟨hn, hs, hb, ?_, ?_, ?_⟩
  · intro hmem
    rw [mem_check_completeness] at hmem
    rcases hmem with ⟨h, _⟩ | ⟨_, h⟩ | ⟨_, h⟩ | ⟨_, h⟩ | ⟨_, h⟩ | ⟨_, _, _, h⟩
    · rw [hn] at h; exact absurd h (by decide)
    · exact absurd h (by decide)
    · exact absurd h (by decide)
    · exact absurd h (ne_invalid_currency_tag _ _ (by decide))
    · exact absurd h (by decide)
    · exact absurd h (by decide)
  · intro hmem
    rw [mem_check_completeness] at hmem
    rcases hmem with ⟨_, h⟩ | ⟨h, _⟩ | ⟨_, h⟩ | ⟨_, h⟩ | ⟨_, h⟩ | ⟨_, _, _, h⟩
    · exact absurd h (by decide)
    · rw [hs] at h; exact absurd h (by decide)
    · exact absurd h (by decide)
    · exact absurd h (ne_invalid_currency_tag _ _ (by decide))
    · exact absurd h (by decide)
    · exact absurd h (by decide)
  · intro hmem
    rw [mem_check_completeness] at hmem
    rcases hmem with ⟨_, h⟩ | ⟨_, h⟩ | ⟨h, _⟩ | ⟨_, h⟩ | ⟨_, h⟩ | ⟨_, _, _, h⟩
    · exact absurd h (by decide)
    · exact absurd h (by decide)
    · rw [hb] at h; exact absurd h (by decide)
    · exact absurd h (ne_invalid_currency_tag _ _ (by decide))
    · exact absurd h (by decide)
    · exact absurd h (by decide)

/-- Witness for C7 at the empty text (no pattern matches anything). -/
theorem claim7_sentinels_witness :
    (search_first INVOICE_NO_PATTERNS "" = none ∧
      search_first SELLER_PATTERNS "" = none ∧
      search_first BUYER_PATTERNS "" = none) ∧
    ((parse_invoice_from_text "" "doc.pdf").invoice_number = "UNKNOWN" ∧
      (parse_invoice_from_text "" "doc.pdf").seller_name = "UNKNOWN_SELLER" ∧
      (parse_invoice_from_text "" "doc.pdf").buyer_name = "UNKNOWN_BUYER" ∧
      "missing_field: invoice_number" ∉
        check_completeness (parse_invoice_from_text "" "doc.pdf") ∧
      "missing_field: seller_name" ∉
        check_completeness (parse_invoice_from_text "" "doc.pdf") ∧
      "missing_field: buyer_name" ∉
        check_completeness (parse_invoice_from_text "" "doc.pdf")) :=
  ⟨⟨by decide, by decide, by decide⟩,
    claim7_sentinels "" "doc.pdf" (by decide) (by decide) (by decide)⟩

/-- C10: the extracted currency always lies in the fixed allowed set (the
no-match default INR included), so an invoice produced by the extractor never
receives an `invalid_currency` error from the rule engine. -/
theorem claim10_currency_allowed (text source_file : String) :
    (parse_invoice_from_text text source_file).currency ∈ ALLOWED_CURRENCIES ∧
    ∀ e ∈ recordErrors (parse_invoice_from_text text source_file),
      ∀ c : String, e ≠ "invalid_currency: " ++ c := by
  have hcur : (parse_invoice_from_text text source_file).currency ∈ ALLOWED_CURRENCIES := by
    show guess_currency text ∈ ALLOWED_CURRENCIES
    rw [guess_currency]
    cases hf : CURRENCY_CODES.find? (fun code => wordSearchAux code.data none text.data) with
    | none => decide
    | some code =>
      have hmem := List.mem_of_find?_eq_some hf
      simpa [ALLOWED_CURRENCIES, CURRENCY_CODES] using hmem
  refine ⟨hcur, ?_⟩
  intro e hmem c
  rw [recordErrors, List.mem_append, mem_check_completeness,
    mem_check_business_rules] at hmem
  rcases hmem with
    (⟨_, h⟩ | ⟨_, h⟩ | ⟨_, h⟩ | ⟨hcne, h⟩ | ⟨_, h⟩ | ⟨_, _, _, h⟩) |
    (⟨_, h⟩ | ⟨_, h⟩ | ⟨_, _, h⟩)
  · rw [h]; exact ne_invalid_currency_tag _ _ (by decide)
  · rw [h]; exact ne_invalid_currency_tag _ _ (by decide)
  · rw [h]; exact ne_invalid_currency_tag _ _ (by decide)
  · exact absurd hcur hcne
  · rw [h]; exact ne_invalid_currency_tag _ _ (by decide)
  · rw [h]; exact ne_invalid_currency_tag _ _ (by decide)
  · rw [h]; exact ne_invalid_currency_tag _ _ (by decide)
  · rw [h]; exact ne_invalid_currency_tag _ _ (by decide)
  · rw [h]; exact ne_invalid_currency_tag _ _ (by decide)

/-- Witness for C10: a text whose extracted invoice does carry an error
(`invalid_date`, since "Date: 10/01/1999" parses to year 1999 < 2000), and
that error is not an `invalid_currency` tag. -/
theorem claim10_currency_allowed_witness :
    "invalid_date: invoice_date_too_old" ∈
      recordErrors (parse_invoice_from_text "Date: 10/01/1999" "doc.pdf") ∧
    ∀ c : String, "invalid_date: invoice_date_too_old" ≠ "invalid_currency: " ++ c :=
  ⟨of_decide_eq_true (by with_unfolding_all rfl),
    (claim10_currency_allowed "Date: 10/01/1999" "doc.pdf").2 _
      (of_decide_eq_true (by with_unfolding_all rfl))⟩

end InvoiceQC
